import Mathlib

/-!
Verification of the dockgo layer-analysis library.

The Go sources (pkg/analysis/docker_image.go, pkg/analysis/layer_analysis.go)
are embedded shallowly:

* `DockerLayer` mirrors `type DockerLayer struct`; the `Parent *DockerLayer`
  pointer becomes an `Option DockerLayer` field of an inductive type, so a
  parent chain is finite (acyclic) by construction, exactly as in the Go
  program where parents are only ever previously constructed layers.
* Go `int64` and `int` are modelled as `Int`; `time.Time` values are modelled
  as instants (`Int`), with `After`/`Before` as `<` on instants.
* `strings.Fields`, `strings.Split(s, ",")` and `strconv.ParseInt(s, 10, 64)`
  are implemented following the Go library's behaviour (`goFields`,
  `goSplitComma`, `parseInt64`).
* `time.Parse(time.RFC3339, s)` is abstracted as an explicit function
  parameter `parseTime : String → Option Int`; the claims about the parser
  only depend on whether this call succeeds.
* Go slice expressions that can fault at run time (negative or out-of-range
  bounds, out-of-range indexing) are modelled with `Option`/an explicit
  `fault` constructor: `none`/`fault` is a run-time panic.
* `sort.Slice(x, less)` is modelled by its documented contract
  (`goSortSpec`): the result is a permutation of the input that is sorted
  with respect to `less`.  Go documents this sort as NOT guaranteed to be
  stable, so the contract deliberately does not fix the order of elements
  that compare equal.
-/

namespace Dockgo

/-- The code points accepted by Go's `unicode.IsSpace`, used by
`strings.Fields`. -/
def isGoSpace (c : Char) : Bool :=
  c.toNat == 0x9 || c.toNat == 0xA || c.toNat == 0xB || c.toNat == 0xC ||
  c.toNat == 0xD || c.toNat == 0x20 || c.toNat == 0x85 || c.toNat == 0xA0 ||
  c.toNat == 0x1680 || (0x2000 ≤ c.toNat && c.toNat ≤ 0x200A) ||
  c.toNat == 0x2028 || c.toNat == 0x2029 || c.toNat == 0x202F ||
  c.toNat == 0x205F || c.toNat == 0x3000

/-- Accumulator pass for `goFields`: `cur` is the current field, reversed. -/
def fieldsAux : List Char → List Char → List String
  | [], [] => []
  | [], cur => [String.mk cur.reverse]
  | c :: cs, cur =>
    if isGoSpace c then
      match cur with
      | [] => fieldsAux cs []
      | _ :: _ => String.mk cur.reverse :: fieldsAux cs []
    else fieldsAux cs (c :: cur)

/-- Go `strings.Fields`: split around runs of white space; no empty fields. -/
def goFields (s : String) : List String :=
  fieldsAux s.data []

/-- Accumulator pass for `goSplitComma`. -/
def splitCommaAux : List Char → List Char → List String
  | [], cur => [String.mk cur.reverse]
  | c :: cs, cur =>
    if c == ',' then String.mk cur.reverse :: splitCommaAux cs []
    else splitCommaAux cs (c :: cur)

/-- Go `strings.Split(s, ",")`: always returns at least one element
(the empty string yields one empty-string element). -/
def goSplitComma (s : String) : List String :=
  splitCommaAux s.data []

/-- Digit run for `parseInt64`; fails on any non-digit character. -/
def digitsValAux (acc : Nat) : List Char → Option Nat
  | [] => some acc
  | c :: cs =>
    if '0' ≤ c ∧ c ≤ '9' then digitsValAux (acc * 10 + (c.toNat - '0'.toNat)) cs
    else none

/-- Go `strconv.ParseInt(s, 10, 64)`: optional sign, at least one decimal
digit, nothing else, and the value must fit in a signed 64-bit integer.
`none` models a non-nil `error` result. -/
def parseInt64 (s : String) : Option Int :=
  match s.data with
  | [] => none
  | c :: cs =>
    let signed : Bool × List Char :=
      if c = '-' then (true, cs)
      else if c = '+' then (false, cs)
      else (false, c :: cs)
    match signed with
    | (_, []) => none
    | (neg, ds) =>
      match digitsValAux 0 ds with
      | none => none
      | some v =>
        if neg then
          if v ≤ 2 ^ 63 then some (-(v : Int)) else none
        else
          if v ≤ 2 ^ 63 - 1 then some (v : Int) else none

/-- `type DockerLayer struct` from docker_image.go.  `Created` is the parsed
`time.Time` as an instant; `Parent` is the (possibly nil) parent pointer. -/
inductive DockerLayer : Type where
  | mk (ID : String) (Size : Int) (Command : String) (Author : String)
       (Created : Int) (CreatedBy : String) (Tags : List String)
       (Parent : Option DockerLayer) : DockerLayer

def DockerLayer.ID : DockerLayer → String
  | .mk i _ _ _ _ _ _ _ => i

def DockerLayer.Size : DockerLayer → Int
  | .mk _ s _ _ _ _ _ _ => s

def DockerLayer.Command : DockerLayer → String
  | .mk _ _ c _ _ _ _ _ => c

def DockerLayer.Author : DockerLayer → String
  | .mk _ _ _ a _ _ _ _ => a

def DockerLayer.Created : DockerLayer → Int
  | .mk _ _ _ _ t _ _ _ => t

def DockerLayer.CreatedBy : DockerLayer → String
  | .mk _ _ _ _ _ cb _ _ => cb

def DockerLayer.Tags : DockerLayer → List String
  | .mk _ _ _ _ _ _ ts _ => ts

def DockerLayer.Parent : DockerLayer → Option DockerLayer
  | .mk _ _ _ _ _ _ _ p => p

instance : Inhabited DockerLayer := ⟨.mk "" 0 "" "" 0 "" [] none⟩

/-- `type DockerImage struct` from docker_image.go. -/
structure DockerImage : Type where
  Name : String
  Layers : List DockerLayer
  Size : Int

/-- Outcome of `NewDockerLayer`: a successful layer, a returned `error`, or a
run-time fault (index out of range), which the Go program does not return but
dies on. -/
inductive BuildResult : Type where
  | ok (layer : DockerLayer)
  | err (msg : String)
  | fault (msg : String)

/-- `NewDockerLayer` from docker_image.go.  `parseTime` abstracts
`time.Parse(time.RFC3339, ·)`.  The Go code reads `fields[6]` after checking
only `len(fields) < 6`, so a line with exactly 6 fields reaches an
out-of-range index: that is the `fault` case. -/
def NewDockerLayer (parseTime : String → Option Int) (line : String)
    (parent : Option DockerLayer) : BuildResult :=
  let fields := goFields line
  if fields.length < 6 then
    .err ("invalid line: " ++ line)
  else
    match parseInt64 (fields.getD 1 "") with
    | none => .err "invalid size"
    | some size =>
      match parseTime (fields.getD 4 "") with
      | none => .err "invalid creation time"
      | some created =>
        let tags := goSplitComma (fields.getD 5 "")
        match fields.get? 6 with
        | none => .fault "index out of range"
        | some createdBy =>
          .ok (.mk (fields.getD 0 "") size (fields.getD 2 "")
                (fields.getD 3 "") created createdBy tags parent)

/-- Go `int64` two's-complement wrapping: the result of an `int64` operation
reduced into the range [-2^63, 2^63). -/
def wrap64 (z : Int) : Int := (z + 2 ^ 63) % 2 ^ 64 - 2 ^ 63

/-- The values representable in an `int64`. -/
abbrev isInt64 (z : Int) : Prop := -(2 ^ 63) ≤ z ∧ z < 2 ^ 63

/-- `Hierarchy` from docker_image.go: recursion up the parent chain. -/
def DockerLayer.Hierarchy : DockerLayer → String
  | .mk i _ _ _ _ _ _ none => i
  | .mk i _ _ _ _ _ _ (some p) => DockerLayer.Hierarchy p ++ " -> " ++ i

/-- `CumulativeSize` from docker_image.go: recursion up the parent chain.
The recursive case is Go `int64` addition, which wraps on overflow. -/
def DockerLayer.CumulativeSize : DockerLayer → Int
  | .mk _ s _ _ _ _ _ none => s
  | .mk _ s _ _ _ _ _ (some p) => wrap64 (s + DockerLayer.CumulativeSize p)

/-- Claim-side helper: the ids along a parent chain, root ancestor first. -/
def chainIDs : DockerLayer → List String
  | .mk i _ _ _ _ _ _ none => [i]
  | .mk i _ _ _ _ _ _ (some p) => chainIDs p ++ [i]

/-- Claim-side helper: the sizes along a parent chain, root ancestor first. -/
def chainSizes : DockerLayer → List Int
  | .mk _ s _ _ _ _ _ none => [s]
  | .mk _ s _ _ _ _ _ (some p) => chainSizes p ++ [s]

/-- Claim-side helper: the number `k` of records on a parent chain. -/
def chainLength : DockerLayer → Nat
  | .mk _ _ _ _ _ _ _ none => 1
  | .mk _ _ _ _ _ _ _ (some p) => chainLength p + 1

/-- Claim-side helper: join a list of strings with a separator. -/
def joinSep (sep : String) : List String → String
  | [] => ""
  | [x] => x
  | x :: y :: xs => x ++ sep ++ joinSep sep (y :: xs)

/-- `LayersInTimeRange` from docker_image.go, written as the source's
append loop.  `layer.Created.After(start) && layer.Created.Before(end)`. -/
def LayersInTimeRange (image : DockerImage) (start stop : Int) :
    List DockerLayer :=
  image.Layers.foldl
    (fun acc layer =>
      if start < layer.Created ∧ layer.Created < stop then acc ++ [layer]
      else acc) []

/-- `LayersInDateRange` from layer_analysis.go (same loop on a bare
sequence). -/
def LayersInDateRange (layers : List DockerLayer) (start stop : Int) :
    List DockerLayer :=
  layers.foldl
    (fun acc layer =>
      if start < layer.Created ∧ layer.Created < stop then acc ++ [layer]
      else acc) []

/-- `LayersWithTags` from layer_analysis.go. -/
def LayersWithTags (layers : List DockerLayer) : List DockerLayer :=
  layers.foldl
    (fun acc layer => if 0 < layer.Tags.length then acc ++ [layer] else acc) []

/-- `LayersWithoutTags` from layer_analysis.go. -/
def LayersWithoutTags (layers : List DockerLayer) : List DockerLayer :=
  layers.foldl
    (fun acc layer => if layer.Tags.length = 0 then acc ++ [layer] else acc) []

/-- Go slice expression `l[i:]`: faults (panics) unless `0 ≤ i ≤ len l`. -/
def goSliceFrom {α : Type} (l : List α) (i : Int) : Option (List α) :=
  if i < 0 ∨ (l.length : Int) < i then none else some (l.drop i.toNat)

/-- `LastNLayers` from docker_image.go: clamp `n` to the length from above
(only), then take the slice `Layers[len-n:]`.  For negative `n` the slice
lower bound exceeds the length, a run-time panic (`none`). -/
def LastNLayers (image : DockerImage) (n : Int) : Option (List DockerLayer) :=
  let len : Int := image.Layers.length
  let m : Int := if len < n then len else n
  goSliceFrom image.Layers (len - m)

/-- The documented contract of Go's `sort.Slice(x, less)`: the output is a
permutation of the input, in order with respect to `less` (no later element
is `less` than an earlier one).  Stability is deliberately NOT part of the
contract: Go documents this sort as not guaranteed to be stable. -/
def goSortSpec {α : Type} (less : α → α → Bool) (input output : List α) :
    Prop :=
  input.Perm output ∧ output.Pairwise (fun a b => less b a = false)

/-- The `less` closure of `LargestNLayers`/`LargestLayers`:
`layer1.Size > layer2.Size`. -/
def sizeGT (a b : DockerLayer) : Bool := decide (a.Size > b.Size)

/-- The `less` closure of `SmallestLayers`/`MedianSize`:
`layer1.Size < layer2.Size`. -/
def sizeLT (a b : DockerLayer) : Bool := decide (a.Size < b.Size)

/-- Go slice expression `l[:n]` after the clamp `if n > len(l) then n = len(l)`:
faults (panics) when `n` is negative. -/
def goTakeSlice {α : Type} (n : Int) (l : List α) : Option (List α) :=
  let m : Int := if (l.length : Int) < n then (l.length : Int) else n
  if m < 0 then none else some (l.take m.toNat)

/-- `sortLayers` from layer_analysis.go: copy the sequence, `sort.Slice` the
copy with the given comparison, clamp `n` from above, return the initial
slice.  Relational because `sort.Slice` is specified, not implemented. -/
def sortLayersRel (layers : List DockerLayer)
    (comparison : DockerLayer → DockerLayer → Bool) (n : Int)
    (res : Option (List DockerLayer)) : Prop :=
  ∃ sorted, goSortSpec comparison layers sorted ∧ res = goTakeSlice n sorted

/-- `LargestLayers` from layer_analysis.go. -/
def LargestLayersRel (layers : List DockerLayer) (n : Int)
    (res : Option (List DockerLayer)) : Prop :=
  sortLayersRel layers sizeGT n res

/-- `LargestNLayers` from docker_image.go (its own copy of the same
pattern). -/
def LargestNLayersRel (image : DockerImage) (n : Int)
    (res : Option (List DockerLayer)) : Prop :=
  ∃ sorted, goSortSpec sizeGT image.Layers sorted ∧ res = goTakeSlice n sorted

/-- The arithmetic tail of `MedianSize` on the sorted copy: `0` when empty,
middle element when odd; when even, the middle-pair sum is Go `int64`
addition (wraps on overflow) followed by Go truncating division by 2. -/
def medianFromSorted (l : List DockerLayer) : Int :=
  if l.length = 0 then 0
  else
    let middle := l.length / 2
    if l.length % 2 = 0 then
      Int.tdiv
        (wrap64 ((l.getD (middle - 1) default).Size +
          (l.getD middle default).Size)) 2
    else (l.getD middle default).Size

/-- `MedianSize` from layer_analysis.go: copy, sort ascending by size, take
the middle. -/
def MedianSizeRel (layers : List DockerLayer) (res : Int) : Prop :=
  ∃ sorted, goSortSpec sizeLT layers sorted ∧ res = medianFromSorted sorted

/-- The local `frequency` struct of `mostCommon` in layer_analysis.go. -/
structure Frequency : Type where
  Value : String
  Count : Int

/-- The `less` closure of `mostCommon`: descending by count. -/
def countGT (a b : Frequency) : Bool := decide (a.Count > b.Count)

/-- `values := make([]string, n)` followed by `values[i] = vals[i]` for
`i < n && i < len(vals)`: faults for negative `n`, otherwise pads with empty
strings when `n` exceeds the number of values. -/
def goMakeFill (n : Int) (vals : List String) : Option (List String) :=
  if n < 0 then none
  else some (vals.take n.toNat ++ List.replicate (n.toNat - vals.length) "")

/-- `mostCommon` from layer_analysis.go.  `entries` is the key/count
association held by the Go map `mapWithCount` (keys distinct); `iter` is the
order map iteration delivered them in, which Go leaves unspecified. -/
def mostCommonRel (entries : List (String × Int)) (n : Int)
    (res : Option (List String)) : Prop :=
  ∃ iter : List (String × Int), iter.Perm entries ∧
    ∃ sorted,
      goSortSpec countGT (iter.map fun e => Frequency.mk e.1 e.2) sorted ∧
      res = goMakeFill n (sorted.map Frequency.Value)

/-- Heap of Go backing arrays of layers; a slice value is an index into it.
Used to state that sorting queries do not mutate their input sequence. -/
abbrev Store : Type := List (List DockerLayer)

/-- Contents of the backing array a slice denotes. -/
def readArr (st : Store) (s : Nat) : List DockerLayer := st.getD s []

/-- `sortLayers` in the store model: `append([]DockerLayer(nil), layers...)`
allocates a fresh array (index `st.length`) holding the contents of `s`;
`sort.Slice` then permutes that fresh array only. -/
def sortLayersSt (st : Store) (s : Nat)
    (comparison : DockerLayer → DockerLayer → Bool) (n : Int)
    (out : Store × Option (List DockerLayer)) : Prop :=
  ∃ sorted, goSortSpec comparison (readArr st s) sorted ∧
    out = (st ++ [sorted], goTakeSlice n sorted)

/-- `LargestNLayers` in the store model (same copy-then-sort pattern). -/
def LargestNLayersSt (st : Store) (s : Nat) (n : Int)
    (out : Store × Option (List DockerLayer)) : Prop :=
  sortLayersSt st s sizeGT n out

/-- `MedianSize` in the store model (same copy-then-sort pattern). -/
def MedianSizeSt (st : Store) (s : Nat) (out : Store × Int) : Prop :=
  ∃ sorted, goSortSpec sizeLT (readArr st s) sorted ∧
    out = (st ++ [sorted], medianFromSorted sorted)

/-- Claim-side helper: the sizes of the layers, sorted ascending. -/
def ascSizes (layers : List DockerLayer) : List Int :=
  List.insertionSort (· ≤ ·) (layers.map DockerLayer.Size)

/- ------------------------------------------------------------------ -/
/- Helper lemmas                                                       -/
/- ------------------------------------------------------------------ -/

theorem splitCommaAux_length_pos :
    ∀ (cs cur : List Char), 0 < (splitCommaAux cs cur).length
  | [], _ => by simp [splitCommaAux]
  | c :: cs, cur => by
    cases hc : c == ',' with
    | true => simp [splitCommaAux, hc]
    | false =>
      simpa [splitCommaAux, hc] using splitCommaAux_length_pos cs (c :: cur)

theorem goSplitComma_length_pos (s : String) : 0 < (goSplitComma s).length :=
  splitCommaAux_length_pos s.data []

/-- The append-loop pattern shared by the filter queries is `List.filter`. -/
theorem foldl_ite_append (p : DockerLayer → Prop) [DecidablePred p] :
    ∀ (xs acc : List DockerLayer),
      xs.foldl (fun a x => if p x then a ++ [x] else a) acc =
        acc ++ xs.filter fun x => decide (p x)
  | [], acc => by simp
  | x :: xs, acc => by
    by_cases hx : p x
    · simp [hx, foldl_ite_append p xs (acc ++ [x])]
    · simp [hx, foldl_ite_append p xs acc]

/-- A successfully built layer got its tags from `strings.Split(·, ",")`. -/
theorem tags_of_newDockerLayer_ok (pt : String → Option Int) (line : String)
    (parent : Option DockerLayer) (layer : DockerLayer)
    (h : NewDockerLayer pt line parent = .ok layer) :
    ∃ s, layer.Tags = goSplitComma s := by
  unfold NewDockerLayer at h
  dsimp only at h
  split at h
  · exact BuildResult.noConfusion h
  · split at h
    · exact BuildResult.noConfusion h
    · split at h
      · exact BuildResult.noConfusion h
      · split at h
        · exact BuildResult.noConfusion h
        · rw [BuildResult.ok.injEq] at h
          subst h
          exact ⟨_, rfl⟩

/- ------------------------------------------------------------------ -/
/- Claim C1                                                            -/
/- ------------------------------------------------------------------ -/

/-- Claim C1 counterexample: on a line with exactly six whitespace-separated
fields, a valid integer size field and a timestamp the parser accepts,
`NewDockerLayer` does not return a record: it reads `fields[6]`, which is out
of range, a run-time fault.  This refutes the claim as stated for lines of
exactly six fields. -/
theorem newDockerLayer_six_fields_fault :
    NewDockerLayer (fun _ => some 0) "id 1 cmd auth tstamp tag" none =
      .fault "index out of range" := by rfl

/-- Claim C1 (amended: at least 7 fields rather than at least 6): for every
input line that splits into at least 7 whitespace-separated fields, whose
second field parses as a base-10 integer and whose fifth field the timestamp
parser accepts, `NewDockerLayer` returns a record without error, and its ID,
Size, Command, Author, Created, CreatedBy and Tags fields equal the
corresponding split input fields (Tags being the comma-split of field 5). -/
theorem newDockerLayer_ok_of_seven_fields (pt : String → Option Int)
    (line : String) (parent : Option DockerLayer) (sz t : Int)
    (h7 : 7 ≤ (goFields line).length)
    (hsz : parseInt64 ((goFields line).getD 1 "") = some sz)
    (ht : pt ((goFields line).getD 4 "") = some t) :
    NewDockerLayer pt line parent =
      .ok (.mk ((goFields line).getD 0 "") sz ((goFields line).getD 2 "")
        ((goFields line).getD 3 "") t ((goFields line).getD 6 "")
        (goSplitComma ((goFields line).getD 5 "")) parent) := by
  have h6 : ¬ (goFields line).length < 6 := by omega
  have hlt : 6 < (goFields line).length := by omega
  have hget : (goFields line).get? 6 = some ((goFields line).getD 6 "") := by
    simp [List.getElem?_eq_getElem hlt]
  unfold NewDockerLayer
  dsimp only
  simp only [if_neg h6, hsz, ht, hget]

/-- Claim C1 witness: a concrete seven-field line builds the expected
record. -/
theorem newDockerLayer_ok_of_seven_fields_witness :
    NewDockerLayer (fun _ => some 7) "i 42 c a T t1,t2 cb" none =
      .ok (.mk "i" 42 "c" "a" 7 "cb" ["t1", "t2"] none) :=
  newDockerLayer_ok_of_seven_fields (fun _ => some 7) "i 42 c a T t1,t2 cb"
    none 42 7 (by decide) (by decide) rfl

/- ------------------------------------------------------------------ -/
/- Claim C6                                                            -/
/- ------------------------------------------------------------------ -/

/-- Claim C6: `NewDockerLayer` returns an error when the line has fewer than
6 whitespace-separated fields, when the size field is not a valid base-10
integer, or when the timestamp field is rejected by the timestamp parser.
The `.err` result carries only a message, so no partial or degraded record
reaches the caller on any of these paths. -/
theorem newDockerLayer_error_cases (pt : String → Option Int) (line : String)
    (parent : Option DockerLayer) :
    ((goFields line).length < 6 →
      NewDockerLayer pt line parent = .err ("invalid line: " ++ line)) ∧
    (6 ≤ (goFields line).length →
      parseInt64 ((goFields line).getD 1 "") = none →
      NewDockerLayer pt line parent = .err "invalid size") ∧
    (∀ sz : Int, 6 ≤ (goFields line).length →
      parseInt64 ((goFields line).getD 1 "") = some sz →
      pt ((goFields line).getD 4 "") = none →
      NewDockerLayer pt line parent = .err "invalid creation time") := by
  refine ⟨?_, ?_, ?_⟩
  · intro h
    unfold NewDockerLayer
    dsimp only
    rw [if_pos h]
  · intro h hp
    have h6 : ¬ (goFields line).length < 6 := by omega
    unfold NewDockerLayer
    dsimp only
    simp only [if_neg h6, hp]
  · intro sz h hp hpt
    have h6 : ¬ (goFields line).length < 6 := by omega
    unfold NewDockerLayer
    dsimp only
    simp only [if_neg h6, hp, hpt]

/-- Claim C6 witness: the three error paths on concrete lines. -/
theorem newDockerLayer_error_cases_witness :
    NewDockerLayer (fun _ => some 0) "too few" none =
      .err ("invalid line: " ++ "too few") ∧
    NewDockerLayer (fun _ => some 0) "id xx cmd auth tstamp tag extra" none =
      .err "invalid size" ∧
    NewDockerLayer (fun _ => none) "id 1 cmd auth tstamp tag extra" none =
      .err "invalid creation time" :=
  ⟨(newDockerLayer_error_cases (fun _ => some 0) "too few" none).1 (by decide),
   (newDockerLayer_error_cases (fun _ => some 0)
      "id xx cmd auth tstamp tag extra" none).2.1 (by decide) (by decide),
   (newDockerLayer_error_cases (fun _ => none)
      "id 1 cmd auth tstamp tag extra" none).2.2 1 (by decide) (by decide) rfl⟩

/- ------------------------------------------------------------------ -/
/- Claim C10                                                           -/
/- ------------------------------------------------------------------ -/

/-- Claim C10: every layer built successfully by `NewDockerLayer` has at
least one tag entry (the comma-split always yields at least one, possibly
empty, element), so on a sequence of such layers `LayersWithoutTags` is
empty and `LayersWithTags` returns the whole sequence in order. -/
theorem parsed_layers_have_tags (layers : List DockerLayer)
    (h : ∀ layer ∈ layers,
      ∃ pt line parent, NewDockerLayer pt line parent = .ok layer) :
    (∀ layer ∈ layers, 1 ≤ layer.Tags.length) ∧
    LayersWithoutTags layers = [] ∧
    LayersWithTags layers = layers := by
  have htags : ∀ layer ∈ layers, 1 ≤ layer.Tags.length := by
    intro layer hl
    obtain ⟨pt, line, parent, hok⟩ := h layer hl
    obtain ⟨s, hs⟩ := tags_of_newDockerLayer_ok pt line parent layer hok
    rw [hs]
    exact goSplitComma_length_pos s
  refine ⟨htags, ?_, ?_⟩
  · unfold LayersWithoutTags
    rw [foldl_ite_append (fun layer => layer.Tags.length = 0) layers []]
    rw [List.nil_append, List.filter_eq_nil_iff]
    intro a ha
    have := htags a ha
    simp only [decide_eq_true_eq]
    omega
  · unfold LayersWithTags
    rw [foldl_ite_append (fun layer => 0 < layer.Tags.length) layers []]
    rw [List.nil_append, List.filter_eq_self]
    intro a ha
    have := htags a ha
    simp only [decide_eq_true_eq]
    omega

/-- Claim C10 witness: a concretely parsed layer has tags, and the two
filters behave as claimed on the one-element sequence holding it. -/
theorem parsed_layers_have_tags_witness :
    LayersWithoutTags [DockerLayer.mk "i" 42 "c" "a" 7 "cb" ["t1", "t2"] none]
        = [] ∧
    LayersWithTags [DockerLayer.mk "i" 42 "c" "a" 7 "cb" ["t1", "t2"] none] =
      [DockerLayer.mk "i" 42 "c" "a" 7 "cb" ["t1", "t2"] none] :=
  (parsed_layers_have_tags
    [DockerLayer.mk "i" 42 "c" "a" 7 "cb" ["t1", "t2"] none]
    (fun layer hl => ⟨fun _ => some 7, "i 42 c a T t1,t2 cb", none, by
      rw [List.mem_singleton.mp hl]
      rfl⟩)).2

/- ------------------------------------------------------------------ -/
/- Claim C7                                                            -/
/- ------------------------------------------------------------------ -/

theorem wrap64_eq_self (z : Int) (h1 : -(2 ^ 63) ≤ z) (h2 : z < 2 ^ 63) :
    wrap64 z = z := by
  unfold wrap64
  omega

theorem wrap64_add_right (a b : Int) :
    wrap64 (a + wrap64 b) = wrap64 (a + b) := by
  unfold wrap64
  omega

theorem chainIDs_ne_nil : ∀ l : DockerLayer, chainIDs l ≠ []
  | .mk _ _ _ _ _ _ _ none => by simp [chainIDs]
  | .mk _ _ _ _ _ _ _ (some _) => by simp [chainIDs]

theorem joinSep_append_singleton (sep x : String) :
    ∀ (xs : List String), xs ≠ [] →
      joinSep sep (xs ++ [x]) = joinSep sep xs ++ sep ++ x
  | [], h => absurd rfl h
  | [_], _ => rfl
  | y :: z :: xs, _ => by
    have ih := joinSep_append_singleton sep x (z :: xs) (by simp)
    show y ++ sep ++ joinSep sep ((z :: xs) ++ [x]) =
      y ++ sep ++ joinSep sep (z :: xs) ++ sep ++ x
    rw [ih]
    simp [String.append_assoc]

/-- Claim C7 counterexample: a two-layer chain whose sizes are each
2^62 + 1 (both valid `int64` values) makes the Go `int64` addition in
`CumulativeSize` wrap: the program returns -2^63 + 2, not the sum
2^63 + 2 of the two sizes. -/
theorem cumulativeSize_wraps :
    (DockerLayer.mk "c" (2 ^ 62 + 1) "" "" 0 "" []
      (some (DockerLayer.mk "r" (2 ^ 62 + 1) "" "" 0 "" []
        none))).CumulativeSize = -(2 ^ 63) + 2 ∧
    (chainSizes (DockerLayer.mk "c" (2 ^ 62 + 1) "" "" 0 "" []
      (some (DockerLayer.mk "r" (2 ^ 62 + 1) "" "" 0 "" []
        none)))).sum = 2 ^ 63 + 2 ∧
    (DockerLayer.mk "c" (2 ^ 62 + 1) "" "" 0 "" []
      (some (DockerLayer.mk "r" (2 ^ 62 + 1) "" "" 0 "" []
        none))).CumulativeSize ≠
      (chainSizes (DockerLayer.mk "c" (2 ^ 62 + 1) "" "" 0 "" []
        (some (DockerLayer.mk "r" (2 ^ 62 + 1) "" "" 0 "" []
          none)))).sum :=
  ⟨by decide, by decide, by decide⟩

/-- Claim C7 (amended: `CumulativeSize` equals the `int64`-wrapping sum of
the `k` sizes, which coincides with the exact sum whenever that sum fits in
an `int64`): for every parent chain of `k` layers whose sizes are `int64`
values, `Hierarchy` terminates and returns the `k` layer ids from the root
ancestor to this layer joined by the separator, and `CumulativeSize`
terminates and equals the wrapped sum of the `k` sizes — the exact sum when
it is `int64`-representable.  Termination is witnessed by these being total
functions of the chain. -/
theorem hierarchy_cumulative_chain :
    ∀ layer : DockerLayer, (∀ s ∈ chainSizes layer, isInt64 s) →
      layer.Hierarchy = joinSep " -> " (chainIDs layer) ∧
      (chainIDs layer).length = chainLength layer ∧
      layer.CumulativeSize = wrap64 ((chainSizes layer).sum) ∧
      (chainSizes layer).length = chainLength layer ∧
      (isInt64 ((chainSizes layer).sum) →
        layer.CumulativeSize = (chainSizes layer).sum)
  | .mk i s c a t cb tg none => fun hsz => by
    have hs : isInt64 s := hsz s (by simp [chainSizes])
    refine ⟨by simp [DockerLayer.Hierarchy, chainIDs, joinSep],
      by simp [chainIDs, chainLength], ?_, by simp [chainSizes, chainLength],
      ?_⟩
    · show s = wrap64 ([s].sum)
      rw [List.sum_singleton]
      exact (wrap64_eq_self s hs.1 hs.2).symm
    · intro _
      show s = [s].sum
      rw [List.sum_singleton]
  | .mk i s c a t cb tg (some p) => fun hsz => by
    have hp : ∀ x ∈ chainSizes p, isInt64 x := fun x hx =>
      hsz x (by
        show x ∈ chainSizes p ++ [s]
        exact List.mem_append_left _ hx)
    obtain ⟨ih1, ih2, ih3, ih4, -⟩ := hierarchy_cumulative_chain p hp
    have hsum : (chainSizes p ++ [s]).sum = s + (chainSizes p).sum := by
      rw [List.sum_append, List.sum_singleton]
      omega
    refine ⟨?_, ?_, ?_, ?_, ?_⟩
    · show DockerLayer.Hierarchy p ++ " -> " ++ i =
        joinSep " -> " (chainIDs p ++ [i])
      rw [joinSep_append_singleton " -> " i (chainIDs p) (chainIDs_ne_nil p),
        ih1]
    · show (chainIDs p ++ [i]).length = chainLength p + 1
      simp [ih2]
    · show wrap64 (s + DockerLayer.CumulativeSize p) =
        wrap64 ((chainSizes p ++ [s]).sum)
      rw [ih3, wrap64_add_right, hsum]
    · show (chainSizes p ++ [s]).length = chainLength p + 1
      simp [ih4]
    · intro hfit
      show wrap64 (s + DockerLayer.CumulativeSize p) =
        (chainSizes p ++ [s]).sum
      rw [ih3, wrap64_add_right, ← hsum]
      exact wrap64_eq_self _ hfit.1 hfit.2

/-- Claim C7 witness: a concrete two-layer chain with small sizes, where the
wrapped sum is the exact sum. -/
theorem hierarchy_cumulative_chain_witness :
    (DockerLayer.mk "a" 1 "" "" 0 "" []
      (some (DockerLayer.mk "b" 2 "" "" 0 "" [] none))).Hierarchy =
      "b -> a" ∧
    (DockerLayer.mk "a" 1 "" "" 0 "" []
      (some (DockerLayer.mk "b" 2 "" "" 0 "" [] none))).CumulativeSize = 3 :=
  ⟨((hierarchy_cumulative_chain
      (DockerLayer.mk "a" 1 "" "" 0 "" []
        (some (DockerLayer.mk "b" 2 "" "" 0 "" [] none)))
      (by decide)).1).trans (by decide),
   (((hierarchy_cumulative_chain
      (DockerLayer.mk "a" 1 "" "" 0 "" []
        (some (DockerLayer.mk "b" 2 "" "" 0 "" [] none)))
      (by decide)).2.2.2.2) (by decide)).trans (by decide)⟩

/- ------------------------------------------------------------------ -/
/- Claim C4                                                            -/
/- ------------------------------------------------------------------ -/

/-- Claim C4: `LayersInTimeRange` (and `LayersInDateRange`) keep exactly the
layers created strictly after `start` and strictly before `stop`, in the
original order (they are the filter of the stored sequence); a layer created
exactly at `start` or exactly at `stop` is excluded. -/
theorem layersInTimeRange_strict (image : DockerImage)
    (layers : List DockerLayer) (start stop : Int) :
    LayersInTimeRange image start stop =
      image.Layers.filter
        (fun layer => decide (start < layer.Created ∧ layer.Created < stop)) ∧
    LayersInDateRange layers start stop =
      layers.filter
        (fun layer => decide (start < layer.Created ∧ layer.Created < stop)) ∧
    (∀ layer ∈ LayersInTimeRange image start stop,
      layer ∈ image.Layers ∧ start < layer.Created ∧ layer.Created < stop) ∧
    (∀ layer ∈ image.Layers, start < layer.Created → layer.Created < stop →
      layer ∈ LayersInTimeRange image start stop) ∧
    (∀ layer : DockerLayer, layer.Created = start ∨ layer.Created = stop →
      layer ∉ LayersInTimeRange image start stop ∧
      layer ∉ LayersInDateRange layers start stop) ∧
    (LayersInTimeRange image start stop).Sublist image.Layers ∧
    (LayersInDateRange layers start stop).Sublist layers := by
  have h1 : LayersInTimeRange image start stop =
      image.Layers.filter
        (fun layer => decide (start < layer.Created ∧ layer.Created < stop)) := by
    unfold LayersInTimeRange
    rw [foldl_ite_append
      (fun layer => start < layer.Created ∧ layer.Created < stop)
      image.Layers [], List.nil_append]
  have h2 : LayersInDateRange layers start stop =
      layers.filter
        (fun layer => decide (start < layer.Created ∧ layer.Created < stop)) := by
    unfold LayersInDateRange
    rw [foldl_ite_append
      (fun layer => start < layer.Created ∧ layer.Created < stop)
      layers [], List.nil_append]
  refine ⟨h1, h2, ?_, ?_, ?_, ?_, ?_⟩
  · intro layer hmem
    rw [h1, List.mem_filter] at hmem
    obtain ⟨hm, hp⟩ := hmem
    simp only [decide_eq_true_eq] at hp
    exact ⟨hm, hp⟩
  · intro layer hmem hs he
    rw [h1, List.mem_filter]
    exact ⟨hmem, by simp only [decide_eq_true_eq]; exact ⟨hs, he⟩⟩
  · intro layer hd
    constructor
    · rw [h1]
      intro hmem
      rw [List.mem_filter] at hmem
      obtain ⟨-, hp⟩ := hmem
      simp only [decide_eq_true_eq] at hp
      rcases hd with h | h <;> omega
    · rw [h2]
      intro hmem
      rw [List.mem_filter] at hmem
      obtain ⟨-, hp⟩ := hmem
      simp only [decide_eq_true_eq] at hp
      rcases hd with h | h <;> omega
  · rw [h1]
    exact List.filter_sublist _
  · rw [h2]
    exact List.filter_sublist _

/-- Claim C4 witness: with range (0, 10), the layer created at 5 is kept and
the layers created exactly at 0 and at 10 are excluded. -/
theorem layersInTimeRange_strict_witness :
    LayersInTimeRange
        ⟨"i", [DockerLayer.mk "s" 0 "" "" 0 "" [] none,
               DockerLayer.mk "m" 0 "" "" 5 "" [] none,
               DockerLayer.mk "e" 0 "" "" 10 "" [] none], 0⟩ 0 10 =
      [DockerLayer.mk "m" 0 "" "" 5 "" [] none] ∧
    DockerLayer.mk "s" 0 "" "" 0 "" [] none ∉
      LayersInTimeRange
        ⟨"i", [DockerLayer.mk "s" 0 "" "" 0 "" [] none,
               DockerLayer.mk "m" 0 "" "" 5 "" [] none,
               DockerLayer.mk "e" 0 "" "" 10 "" [] none], 0⟩ 0 10 ∧
    DockerLayer.mk "e" 0 "" "" 10 "" [] none ∉
      LayersInDateRange
        [DockerLayer.mk "e" 0 "" "" 10 "" [] none] 0 10 :=
  ⟨(layersInTimeRange_strict
      ⟨"i", [DockerLayer.mk "s" 0 "" "" 0 "" [] none,
             DockerLayer.mk "m" 0 "" "" 5 "" [] none,
             DockerLayer.mk "e" 0 "" "" 10 "" [] none], 0⟩ [] 0 10).1,
   ((layersInTimeRange_strict
      ⟨"i", [DockerLayer.mk "s" 0 "" "" 0 "" [] none,
             DockerLayer.mk "m" 0 "" "" 5 "" [] none,
             DockerLayer.mk "e" 0 "" "" 10 "" [] none], 0⟩ [] 0 10).2.2.2.2.1
      (DockerLayer.mk "s" 0 "" "" 0 "" [] none) (Or.inl rfl)).1,
   ((layersInTimeRange_strict ⟨"i", [], 0⟩
      [DockerLayer.mk "e" 0 "" "" 10 "" [] none] 0 10).2.2.2.2.1
      (DockerLayer.mk "e" 0 "" "" 10 "" [] none) (Or.inr rfl)).2⟩

/- ------------------------------------------------------------------ -/
/- Claim C3                                                            -/
/- ------------------------------------------------------------------ -/

/-- Claim C3 counterexample: for negative `n`, `LastNLayers` does not return
the empty sequence: the slice `Layers[len-n:]` has a lower bound beyond the
length, a run-time bounds fault (`none`), on an empty image and on a
one-layer image alike. -/
theorem lastNLayers_negative_faults :
    LastNLayers ⟨"img", [], 0⟩ (-1) = none ∧
    LastNLayers ⟨"img", [DockerLayer.mk "A" 5 "" "" 0 "" [] none], 0⟩ (-1) =
      none ∧
    (∀ l : List DockerLayer, LastNLayers ⟨"img", [], 0⟩ (-1) ≠ some l) :=
  ⟨rfl, rfl, fun _ h => Option.noConfusion h⟩

/-- Claim C3 (amended: for 0 ≤ n; for n < 0 the slice bounds fault): for
every image and every n ≥ 0, `LastNLayers` returns the last
min(n, length) layers in stored order; n = 0 yields the empty sequence and
n ≥ length yields all layers. -/
theorem lastNLayers_clamps (image : DockerImage) (n : Int) (hn : 0 ≤ n) :
    ∃ l, LastNLayers image n = some l ∧
      l = image.Layers.drop
          (image.Layers.length - min n.toNat image.Layers.length) ∧
      l.length = min n.toNat image.Layers.length ∧
      (n = 0 → l = []) ∧
      ((image.Layers.length : Int) ≤ n → l = image.Layers) := by
  unfold LastNLayers goSliceFrom
  dsimp only
  by_cases h : (image.Layers.length : Int) < n
  · rw [if_pos h, if_neg (by omega)]
    refine ⟨_, rfl, ?_, ?_, ?_, ?_⟩
    · rw [show ((image.Layers.length : Int) -
        (image.Layers.length : Int)).toNat =
          image.Layers.length - min n.toNat image.Layers.length from by omega]
    · rw [List.length_drop]
      omega
    · intro h0
      omega
    · intro _
      rw [show ((image.Layers.length : Int) -
        (image.Layers.length : Int)).toNat = 0 from by omega]
      exact List.drop_zero image.Layers
  · rw [if_neg h, if_neg (by omega)]
    refine ⟨_, rfl, ?_, ?_, ?_, ?_⟩
    · rw [show ((image.Layers.length : Int) - n).toNat =
          image.Layers.length - min n.toNat image.Layers.length from by omega]
    · rw [List.length_drop]
      omega
    · intro h0
      subst h0
      rw [show ((image.Layers.length : Int) - 0).toNat =
        image.Layers.length from by omega]
      exact List.drop_length image.Layers
    · intro hle
      rw [show ((image.Layers.length : Int) - n).toNat = 0 from by omega]
      exact List.drop_zero image.Layers

/-- Claim C3 witness: on a two-layer image, n = 1 returns the last layer,
n = 0 the empty sequence, n = 5 all layers. -/
theorem lastNLayers_clamps_witness :
    LastNLayers ⟨"i", [DockerLayer.mk "A" 5 "" "" 0 "" [] none,
                       DockerLayer.mk "B" 6 "" "" 0 "" [] none], 0⟩ 1 =
      some [DockerLayer.mk "B" 6 "" "" 0 "" [] none] := by
  obtain ⟨l, h1, h2, -, -, -⟩ :=
    lastNLayers_clamps ⟨"i", [DockerLayer.mk "A" 5 "" "" 0 "" [] none,
                              DockerLayer.mk "B" 6 "" "" 0 "" [] none], 0⟩ 1
      (by decide)
  rw [h1, h2]
  rfl

/- ------------------------------------------------------------------ -/
/- Claim C2                                                            -/
/- ------------------------------------------------------------------ -/

/-- Shared argument for `LargestNLayers`/`LargestLayers` at `n ≥ 0`. -/
theorem sortTake_spec (src : List DockerLayer) (n : Int) (hn : 0 ≤ n)
    (res : Option (List DockerLayer)) (sorted : List DockerLayer)
    (hs : goSortSpec sizeGT src sorted) (heq : res = goTakeSlice n sorted) :
    ∃ l, res = some l ∧ l = sorted.take n.toNat ∧
      l.length = min n.toNat src.length ∧
      (l.map DockerLayer.Size).Pairwise (fun a b => b ≤ a) := by
  obtain ⟨hperm, hpw⟩ := hs
  have hlen : sorted.length = src.length := (hperm.length_eq).symm
  have hres : res = some (sorted.take n.toNat) := by
    rw [heq]
    unfold goTakeSlice
    dsimp only
    by_cases h : (sorted.length : Int) < n
    · rw [if_pos h, if_neg (by omega)]
      rw [show ((sorted.length : Int)).toNat = sorted.length from by omega]
      rw [List.take_length,
        List.take_of_length_le (by omega : sorted.length ≤ n.toNat)]
    · rw [if_neg h, if_neg (by omega)]
  refine ⟨sorted.take n.toNat, hres, rfl, ?_, ?_⟩
  · rw [List.length_take, hlen]
  · have hle : sorted.Pairwise
        (fun a b => DockerLayer.Size b ≤ DockerLayer.Size a) := by
      refine hpw.imp ?_
      intro a b h
      simp only [sizeGT, decide_eq_false_iff_not, not_lt, gt_iff_lt] at h
      exact h
    exact List.pairwise_map.mpr
      (List.Pairwise.sublist (List.take_sublist n.toNat sorted) hle)

/-- Claim C2 counterexample.  First defect: for n = -1 the slice `copied[:n]`
has a negative bound, a run-time fault (`none`), never a result list.
Second defect: `sort.Slice` makes no stability promise, so on two distinct
layers of equal size the admitted behaviours include the one that reverses
their original relative order. -/
theorem largestNLayers_counterexample :
    LargestNLayersRel ⟨"img", [], 0⟩ (-1) none ∧
    (∀ l : List DockerLayer, ¬ LargestNLayersRel ⟨"img", [], 0⟩ (-1) (some l)) ∧
    LargestNLayersRel
      ⟨"img2", [DockerLayer.mk "A" 5 "" "" 0 "" [] none,
                DockerLayer.mk "B" 5 "" "" 0 "" [] none], 10⟩ 2
      (some [DockerLayer.mk "B" 5 "" "" 0 "" [] none,
             DockerLayer.mk "A" 5 "" "" 0 "" [] none]) ∧
    (DockerLayer.mk "A" 5 "" "" 0 "" [] none).Size =
      (DockerLayer.mk "B" 5 "" "" 0 "" [] none).Size ∧
    (DockerLayer.mk "A" 5 "" "" 0 "" [] none).ID ≠
      (DockerLayer.mk "B" 5 "" "" 0 "" [] none).ID := by
  refine ⟨⟨[], ⟨List.Perm.refl [], List.Pairwise.nil⟩, rfl⟩, ?_, ?_, rfl, ?_⟩
  · rintro l ⟨sorted, ⟨hperm, -⟩, heq⟩
    have : sorted = [] := hperm.symm.eq_nil
    subst this
    exact Option.noConfusion heq
  · refine ⟨[DockerLayer.mk "B" 5 "" "" 0 "" [] none,
             DockerLayer.mk "A" 5 "" "" 0 "" [] none],
      ⟨⟨List.Perm.swap _ _ _, ?_⟩, rfl⟩⟩
    refine List.Pairwise.cons ?_ (List.Pairwise.cons (by simp) .nil)
    intro a ha
    rw [List.mem_singleton.mp ha]
    rfl
  · decide

/-- Claim C2 (amended: n restricted to n ≥ 0, since negative n faults, and
with the tie-order clause weakened to what `sort.Slice` guarantees: the
result is the first min(n, length) elements of some permutation of the
layers that is in non-increasing size order; the relative order of
equal-size layers is not specified).  Covers `LargestNLayers` on an image
and `LargestLayers` on a bare sequence. -/
theorem largestNLayers_sorted_clamped (image : DockerImage)
    (layers : List DockerLayer) (n : Int) (hn : 0 ≤ n)
    (resI resL : Option (List DockerLayer))
    (hI : LargestNLayersRel image n resI)
    (hL : LargestLayersRel layers n resL) :
    (∃ l sorted, resI = some l ∧ goSortSpec sizeGT image.Layers sorted ∧
       l = sorted.take n.toNat ∧
       l.length = min n.toNat image.Layers.length ∧
       (l.map DockerLayer.Size).Pairwise (fun a b => b ≤ a)) ∧
    (∃ l sorted, resL = some l ∧ goSortSpec sizeGT layers sorted ∧
       l = sorted.take n.toNat ∧
       l.length = min n.toNat layers.length ∧
       (l.map DockerLayer.Size).Pairwise (fun a b => b ≤ a)) := by
  constructor
  · obtain ⟨sorted, hs, heq⟩ := hI
    obtain ⟨l, h1, h2, h3, h4⟩ :=
      sortTake_spec image.Layers n hn resI sorted hs heq
    exact ⟨l, sorted, h1, hs, h2, h3, h4⟩
  · obtain ⟨sorted, hs, heq⟩ := hL
    obtain ⟨l, h1, h2, h3, h4⟩ :=
      sortTake_spec layers n hn resL sorted hs heq
    exact ⟨l, sorted, h1, hs, h2, h3, h4⟩

/-- Claim C2 witness: concrete behaviour at a one-layer image and n = 1. -/
theorem largestNLayers_sorted_clamped_witness :
    (∃ l sorted,
       some [DockerLayer.mk "A" 5 "" "" 0 "" [] none] = some l ∧
       goSortSpec sizeGT [DockerLayer.mk "A" 5 "" "" 0 "" [] none] sorted ∧
       l = sorted.take (Int.toNat 1) ∧
       l.length = min (Int.toNat 1)
         [DockerLayer.mk "A" 5 "" "" 0 "" [] none].length ∧
       (l.map DockerLayer.Size).Pairwise (fun a b => b ≤ a)) ∧
    (∃ l sorted,
       some [DockerLayer.mk "A" 5 "" "" 0 "" [] none] = some l ∧
       goSortSpec sizeGT [DockerLayer.mk "A" 5 "" "" 0 "" [] none] sorted ∧
       l = sorted.take (Int.toNat 1) ∧
       l.length = min (Int.toNat 1)
         [DockerLayer.mk "A" 5 "" "" 0 "" [] none].length ∧
       (l.map DockerLayer.Size).Pairwise (fun a b => b ≤ a)) :=
  largestNLayers_sorted_clamped
    ⟨"i", [DockerLayer.mk "A" 5 "" "" 0 "" [] none], 0⟩
    [DockerLayer.mk "A" 5 "" "" 0 "" [] none] 1 (by decide)
    (some [DockerLayer.mk "A" 5 "" "" 0 "" [] none])
    (some [DockerLayer.mk "A" 5 "" "" 0 "" [] none])
    ⟨[DockerLayer.mk "A" 5 "" "" 0 "" [] none],
      ⟨List.Perm.refl _, by simp⟩, rfl⟩
    ⟨[DockerLayer.mk "A" 5 "" "" 0 "" [] none],
      ⟨List.Perm.refl _, by simp⟩, rfl⟩

/- ------------------------------------------------------------------ -/
/- Claim C8                                                            -/
/- ------------------------------------------------------------------ -/

theorem getD_map_size (l : List DockerLayer) (i : Nat) (h : i < l.length) :
    (l.map DockerLayer.Size).getD i 0 = (l.getD i default).Size := by
  rw [List.getD_eq_getElem?_getD, List.getD_eq_getElem?_getD,
    List.getElem?_map, List.getElem?_eq_getElem h]
  rfl

/-- Any output admitted for the ascending sort of `MedianSize` carries the
same size sequence: the multiset of sizes sorted ascending. -/
theorem sorted_sizes_unique (layers sorted : List DockerLayer)
    (hs : goSortSpec sizeLT layers sorted) :
    sorted.map DockerLayer.Size = ascSizes layers := by
  obtain ⟨hperm, hpw⟩ := hs
  have h1 : List.Sorted (· ≤ ·) (sorted.map DockerLayer.Size) := by
    refine List.pairwise_map.mpr (hpw.imp ?_)
    intro a b hab
    simp only [sizeLT, decide_eq_false_iff_not, not_lt] at hab
    exact hab
  have h2 : List.Sorted (· ≤ ·) (ascSizes layers) :=
    List.sorted_insertionSort _ _
  have hp : (sorted.map DockerLayer.Size).Perm (ascSizes layers) :=
    ((hperm.map DockerLayer.Size).symm).trans
      (List.perm_insertionSort _ _).symm
  exact List.eq_of_perm_of_sorted hp h1 h2

/-- Claim C8 counterexample: on two layers whose sizes are each 2^62 + 1
(both valid `int64` values), the middle-pair sum in `MedianSize` wraps:
every admitted behaviour returns -2^62 + 1, not the truncating average
2^62 + 1 of the two middle sizes. -/
theorem medianSize_wraps :
    MedianSizeRel [DockerLayer.mk "a" (2 ^ 62 + 1) "" "" 0 "" [] none,
      DockerLayer.mk "b" (2 ^ 62 + 1) "" "" 0 "" [] none]
      (-(2 ^ 62) + 1) ∧
    (∀ res : Int,
      MedianSizeRel [DockerLayer.mk "a" (2 ^ 62 + 1) "" "" 0 "" [] none,
        DockerLayer.mk "b" (2 ^ 62 + 1) "" "" 0 "" [] none] res →
      res = -(2 ^ 62) + 1) ∧
    ((-(2 ^ 62) + 1 : Int) ≠
      Int.tdiv ((2 ^ 62 + 1) + (2 ^ 62 + 1)) 2) := by
  refine ⟨⟨[DockerLayer.mk "a" (2 ^ 62 + 1) "" "" 0 "" [] none,
      DockerLayer.mk "b" (2 ^ 62 + 1) "" "" 0 "" [] none],
      ⟨List.Perm.refl _, by simp [sizeLT, DockerLayer.Size]⟩, by decide⟩,
    ?_, by decide⟩
  rintro res ⟨sorted, hs, rfl⟩
  have hmap := sorted_sizes_unique
    [DockerLayer.mk "a" (2 ^ 62 + 1) "" "" 0 "" [] none,
     DockerLayer.mk "b" (2 ^ 62 + 1) "" "" 0 "" [] none] sorted hs
  have hlen : sorted.length = 2 := by
    have hl := hs.1.length_eq
    simpa using hl.symm
  have h0 : (sorted.getD 0 default).Size = 2 ^ 62 + 1 := by
    have hg := getD_map_size sorted 0 (by omega)
    rw [hmap] at hg
    exact hg.symm.trans (by decide)
  have h1 : (sorted.getD 1 default).Size = 2 ^ 62 + 1 := by
    have hg := getD_map_size sorted 1 (by omega)
    rw [hmap] at hg
    exact hg.symm.trans (by decide)
  unfold medianFromSorted
  dsimp only
  rw [hlen, if_neg (by omega), if_pos (by omega)]
  show Int.tdiv (wrap64 ((sorted.getD 0 default).Size +
    (sorted.getD 1 default).Size)) 2 = -(2 ^ 62) + 1
  rw [h0, h1]
  decide

/-- Claim C8 (amended: for even length, the middle-pair sum is computed with
Go's wrapping `int64` addition before the truncating division, so the
result is the truncating average of the two middle elements exactly when
their sum fits in an `int64`): `MedianSize` returns 0 on the empty
sequence; for odd length, the middle element of the sizes sorted ascending;
for even length, the truncating half of the wrapped middle-pair sum —
the truncating average whenever that sum is `int64`-representable. -/
theorem medianSize_spec (layers : List DockerLayer) (res : Int)
    (h : MedianSizeRel layers res) :
    (layers = [] → res = 0) ∧
    (layers.length % 2 = 1 →
      res = (ascSizes layers).getD (layers.length / 2) 0) ∧
    (layers.length % 2 = 0 → layers ≠ [] →
      res = Int.tdiv
        (wrap64 ((ascSizes layers).getD (layers.length / 2 - 1) 0 +
          (ascSizes layers).getD (layers.length / 2) 0)) 2 ∧
      (isInt64 ((ascSizes layers).getD (layers.length / 2 - 1) 0 +
          (ascSizes layers).getD (layers.length / 2) 0) →
        res = Int.tdiv ((ascSizes layers).getD (layers.length / 2 - 1) 0 +
          (ascSizes layers).getD (layers.length / 2) 0) 2)) := by
  obtain ⟨sorted, hs, heq⟩ := h
  have hsz := sorted_sizes_unique layers sorted hs
  have hlen : sorted.length = layers.length := hs.1.length_eq.symm
  subst heq
  refine ⟨?_, ?_, ?_⟩
  · intro hl
    have hsn : sorted = [] := by
      have hp := hs.1
      rw [hl] at hp
      exact hp.symm.eq_nil
    rw [hsn]
    rfl
  · intro hodd
    unfold medianFromSorted
    dsimp only
    rw [hlen, if_neg (by omega), if_neg (by omega), ← hsz,
      getD_map_size sorted _ (by omega)]
  · intro heven hne
    have hlpos : layers.length ≠ 0 := fun h0 => hne (List.length_eq_zero.mp h0)
    have hmain : medianFromSorted sorted = Int.tdiv
        (wrap64 ((ascSizes layers).getD (layers.length / 2 - 1) 0 +
          (ascSizes layers).getD (layers.length / 2) 0)) 2 := by
      unfold medianFromSorted
      dsimp only
      rw [hlen, if_neg hlpos, if_pos heven, ← hsz,
        getD_map_size sorted _ (by omega), getD_map_size sorted _ (by omega)]
    refine ⟨hmain, fun hfit => ?_⟩
    rw [hmain, wrap64_eq_self _ hfit.1 hfit.2]

/-- Claim C8 witness: sizes [10, 20, 30] give 20, sizes [10, 20, 30, 40]
give 25, and the empty sequence gives 0 (evaluated through the admitted
sort behaviours at the already-ascending inputs). -/
theorem medianSize_spec_witness :
    (20 : Int) = (ascSizes [DockerLayer.mk "a" 10 "" "" 0 "" [] none,
      DockerLayer.mk "b" 20 "" "" 0 "" [] none,
      DockerLayer.mk "c" 30 "" "" 0 "" [] none]).getD 1 0 ∧
    (25 : Int) = Int.tdiv
      ((ascSizes [DockerLayer.mk "a" 10 "" "" 0 "" [] none,
        DockerLayer.mk "b" 20 "" "" 0 "" [] none,
        DockerLayer.mk "c" 30 "" "" 0 "" [] none,
        DockerLayer.mk "d" 40 "" "" 0 "" [] none]).getD 1 0 +
       (ascSizes [DockerLayer.mk "a" 10 "" "" 0 "" [] none,
        DockerLayer.mk "b" 20 "" "" 0 "" [] none,
        DockerLayer.mk "c" 30 "" "" 0 "" [] none,
        DockerLayer.mk "d" 40 "" "" 0 "" [] none]).getD 2 0) 2 ∧
    ∀ r : Int, MedianSizeRel [] r → r = 0 :=
  ⟨(medianSize_spec [DockerLayer.mk "a" 10 "" "" 0 "" [] none,
      DockerLayer.mk "b" 20 "" "" 0 "" [] none,
      DockerLayer.mk "c" 30 "" "" 0 "" [] none] 20
      ⟨[DockerLayer.mk "a" 10 "" "" 0 "" [] none,
        DockerLayer.mk "b" 20 "" "" 0 "" [] none,
        DockerLayer.mk "c" 30 "" "" 0 "" [] none],
        ⟨List.Perm.refl _, by simp [sizeLT, DockerLayer.Size]⟩, rfl⟩).2.1 (by decide),
   ((medianSize_spec [DockerLayer.mk "a" 10 "" "" 0 "" [] none,
      DockerLayer.mk "b" 20 "" "" 0 "" [] none,
      DockerLayer.mk "c" 30 "" "" 0 "" [] none,
      DockerLayer.mk "d" 40 "" "" 0 "" [] none] 25
      ⟨[DockerLayer.mk "a" 10 "" "" 0 "" [] none,
        DockerLayer.mk "b" 20 "" "" 0 "" [] none,
        DockerLayer.mk "c" 30 "" "" 0 "" [] none,
        DockerLayer.mk "d" 40 "" "" 0 "" [] none],
        ⟨List.Perm.refl _, by simp [sizeLT, DockerLayer.Size]⟩, rfl⟩).2.2
      (by decide) (by simp)).2 (by decide),
   fun r hr => (medianSize_spec [] r hr).1 rfl⟩

/- ------------------------------------------------------------------ -/
/- Claim C5                                                            -/
/- ------------------------------------------------------------------ -/

/-- Claim C5: for a frequency table and n ≥ 0, `mostCommon` returns a
sequence of length exactly n; its first min(n, number of distinct keys)
entries are the keys in non-increasing order of their counts (a prefix of a
count-sorted arrangement of the table), and the remaining entries are
empty-string placeholders, not clamped away. -/
theorem mostCommon_spec (entries : List (String × Int)) (n : Int)
    (hn : 0 ≤ n) (_hkeys : (entries.map Prod.fst).Nodup)
    (res : Option (List String)) (h : mostCommonRel entries n res) :
    ∃ vs, res = some vs ∧ vs.length = n.toNat ∧
      ∃ es : List (String × Int), es.Perm entries ∧
        (es.map Prod.snd).Pairwise (fun a b => b ≤ a) ∧
        vs = (es.map Prod.fst).take n.toNat ++
          List.replicate (n.toNat - entries.length) "" := by
  obtain ⟨iter, hiter, sorted, ⟨hperm, hpw⟩, heq⟩ := h
  have hslen : sorted.length = entries.length := by
    have h1 := hperm.length_eq.symm
    rw [List.length_map] at h1
    rw [h1, hiter.length_eq]
  refine ⟨((sorted.map (fun f => (f.Value, f.Count))).map Prod.fst).take
      n.toNat ++ List.replicate (n.toNat - entries.length) "",
    ?_, ?_, sorted.map (fun f => (f.Value, f.Count)), ?_, ?_, rfl⟩
  · rw [heq]
    unfold goMakeFill
    rw [if_neg (by omega)]
    rw [List.map_map]
    congr 2
    · rw [List.length_map, hslen]
  · rw [List.length_append, List.length_take, List.length_replicate,
      List.map_map, List.length_map, hslen]
    omega
  · have h1 : (sorted.map (fun f => (f.Value, f.Count))).Perm
        ((iter.map fun e => Frequency.mk e.1 e.2).map
          (fun f => (f.Value, f.Count))) :=
      (hperm.map _).symm
    rw [List.map_map] at h1
    have h2 : (iter.map ((fun f : Frequency => (f.Value, f.Count)) ∘
        (fun e : String × Int => Frequency.mk e.1 e.2))) = iter := by
      rw [show ((fun f : Frequency => (f.Value, f.Count)) ∘
        (fun e : String × Int => Frequency.mk e.1 e.2)) = id from rfl,
        List.map_id]
    rw [h2] at h1
    exact h1.trans hiter
  · rw [List.map_map]
    refine List.pairwise_map.mpr (hpw.imp ?_)
    intro a b hab
    simp only [countGT, decide_eq_false_iff_not, not_lt, gt_iff_lt] at hab
    exact hab

/-- Claim C5 witness: counts a ↦ 3, b ↦ 1 with n = 3 admit the result
["a", "b", ""]: length 3, keys descending by count, padded with one empty
placeholder. -/
theorem mostCommon_spec_witness :
    ∃ vs, some ["a", "b", ""] = some vs ∧ vs.length = Int.toNat 3 ∧
      ∃ es : List (String × Int), es.Perm [("a", 3), ("b", 1)] ∧
        (es.map Prod.snd).Pairwise (fun a b => b ≤ a) ∧
        vs = (es.map Prod.fst).take (Int.toNat 3) ++
          List.replicate (Int.toNat 3 - [("a", (3 : Int)), ("b", 1)].length)
            "" :=
  mostCommon_spec [("a", 3), ("b", 1)] 3 (by decide) (by decide)
    (some ["a", "b", ""])
    ⟨[("a", 3), ("b", 1)], List.Perm.refl _,
      [Frequency.mk "a" 3, Frequency.mk "b" 1],
      ⟨List.Perm.refl _, by simp [countGT]⟩, rfl⟩

/- ------------------------------------------------------------------ -/
/- Claim C9                                                            -/
/- ------------------------------------------------------------------ -/

theorem readArr_append (st : Store) (x : List DockerLayer) (s : Nat)
    (hs : s < st.length) : readArr (st ++ [x]) s = readArr st s := by
  unfold readArr
  rw [List.getD_eq_getElem?_getD, List.getD_eq_getElem?_getD,
    List.getElem?_append_left hs]

/-- Claim C9: the sorting queries (`sortLayers` with any comparison, hence
`LargestLayers`/`SmallestLayers`/`OldestLayers`/`NewestLayers`,
`LargestNLayers`, `MedianSize`) never mutate the caller's sequence: each
copies the layers into a fresh backing array and sorts only the copy, so
the input slice reads the same after any admitted behaviour. -/
theorem sorting_queries_no_mutation (st : Store) (s : Nat)
    (comparison : DockerLayer → DockerLayer → Bool) (n : Int)
    (hs : s < st.length) :
    (∀ out : Store × Option (List DockerLayer),
      sortLayersSt st s comparison n out → readArr out.1 s = readArr st s) ∧
    (∀ out : Store × Option (List DockerLayer),
      LargestNLayersSt st s n out → readArr out.1 s = readArr st s) ∧
    (∀ out : Store × Int,
      MedianSizeSt st s out → readArr out.1 s = readArr st s) := by
  refine ⟨?_, ?_, ?_⟩
  · rintro out ⟨sorted, -, rfl⟩
    exact readArr_append st sorted s hs
  · rintro out ⟨sorted, -, rfl⟩
    exact readArr_append st sorted s hs
  · rintro out ⟨sorted, -, rfl⟩
    exact readArr_append st sorted s hs

/-- Claim C9 witness: on a one-array store, an admitted `sortLayers`
behaviour leaves the input array's contents unchanged. -/
theorem sorting_queries_no_mutation_witness :
    readArr [[DockerLayer.mk "A" 5 "" "" 0 "" [] none],
             [DockerLayer.mk "A" 5 "" "" 0 "" [] none]] 0 =
      readArr [[DockerLayer.mk "A" 5 "" "" 0 "" [] none]] 0 :=
  (sorting_queries_no_mutation [[DockerLayer.mk "A" 5 "" "" 0 "" [] none]] 0
      sizeGT 1 (by decide)).1
    ([[DockerLayer.mk "A" 5 "" "" 0 "" [] none],
      [DockerLayer.mk "A" 5 "" "" 0 "" [] none]],
      some [DockerLayer.mk "A" 5 "" "" 0 "" [] none])
    ⟨[DockerLayer.mk "A" 5 "" "" 0 "" [] none],
      ⟨List.Perm.refl _, by simp⟩, rfl⟩

end Dockgo
